import Mathlib

/-!
Shallow embedding of the virtual-currency / shop / inventory subsystem of the
`newmp3` web backend (src/app.py, src/utils.py, src/models.py).

The model keeps the economy rows of one user: the `user_currency` row, the
`currency_transactions` rows, the `user_statistics` row and the
`user_inventory` rows, together with the `shop_items` catalog.  Timestamps
are natural numbers (seconds since the epoch); the UTC calendar date of a
timestamp is the day number `t / 86400`.
-/

/-- `UserCurrency` row (src/models.py:190-198): integer balance and the
cumulative earned / spent totals.  Column defaults are 0. -/
structure UserCurrency where
  balance : Int
  total_earned : Int
  total_spent : Int
  deriving Repr, DecidableEq

/-- `CurrencyTransaction` row (src/models.py:208-216): signed amount, reason
tag, optional free-form metadata, creation timestamp. -/
structure CurrencyTransaction where
  amount : Int
  reason : String
  transaction_metadata : Option String
  created_at : Nat
  deriving Repr, DecidableEq

/-- `UserStatistic` row (src/models.py:483-499), restricted to the fields the
economy touches. -/
structure UserStatistic where
  items_purchased : Nat
  daily_rewards_claimed : Nat
  last_daily_reward : Option Nat
  deriving Repr, DecidableEq

/-- A fresh `UserStatistic(user_id=...)` row: all counters at their column
defaults (src/models.py:490-495). -/
def UserStatistic.init : UserStatistic :=
  { items_purchased := 0, daily_rewards_claimed := 0, last_daily_reward := none }

/-- `ShopItem` row (src/models.py), restricted to the fields the purchase and
equip flows read: primary key, type string, price, stock counter
(−1 = unlimited), sales counter, active flag. -/
structure ShopItem where
  id : Nat
  type : String
  price : Int
  stock : Int
  sales_count : Nat
  is_active : Bool
  deriving Repr, DecidableEq

/-- `UserInventory` row (src/models.py:313-323) for one user: the referenced
item and the `equipped` boolean (column default `False`). -/
structure UserInventory where
  item_id : Nat
  equipped : Bool
  deriving Repr, DecidableEq

/-- The stored (committed) economy state of one user plus the shop catalog. -/
structure State where
  currency : Option UserCurrency
  transactions : List CurrencyTransaction
  stats : Option UserStatistic
  inventory : List UserInventory
  items : List ShopItem
  deriving Repr, DecidableEq

/-- The user's balance as the handlers read it:
`user.currency.balance if user.currency else 0` (src/app.py:754). -/
def State.balanceVal (s : State) : Int :=
  match s.currency with
  | some c => c.balance
  | none => 0

/-- The user's cumulative earned total, 0 when no currency row exists. -/
def State.earnedVal (s : State) : Int :=
  match s.currency with
  | some c => c.total_earned
  | none => 0

/-- The user's cumulative spent total, 0 when no currency row exists. -/
def State.spentVal (s : State) : Int :=
  match s.currency with
  | some c => c.total_spent
  | none => 0

/-- `add_currency` (src/utils.py:613-656), success path: the effect on the
stored rows once `db.session.commit()` succeeds.  Creates the currency row if
absent, adds `amount` to the balance, credits `total_earned` for a positive
amount and `total_spent` with the absolute value otherwise, appends one
transaction record, and when the reason is the daily-reward tag creates the
statistics row if absent, increments `daily_rewards_claimed` and stamps
`last_daily_reward`. -/
def add_currency (amount : Int) (reason : String) (metadata : Option String)
    (now : Nat) (s : State) : State :=
  let currency : UserCurrency :=
    match s.currency with
    | some c =>
        if amount > 0 then
          { c with balance := c.balance + amount,
                   total_earned := c.total_earned + amount }
        else
          { c with balance := c.balance + amount,
                   total_spent := c.total_spent + |amount| }
    | none =>
        { balance := amount,
          total_earned := if amount > 0 then amount else 0,
          total_spent := if amount < 0 then |amount| else 0 }
  let stats : Option UserStatistic :=
    if reason = "daily_reward" then
      let st := s.stats.getD UserStatistic.init
      some { st with daily_rewards_claimed := st.daily_rewards_claimed + 1,
                     last_daily_reward := some now }
    else s.stats
  { s with
    currency := some currency,
    transactions := s.transactions ++
      [{ amount := amount, reason := reason, transaction_metadata := metadata,
         created_at := now }],
    stats := stats }

/-- A sequence of currency adjustments, each an (amount, reason) pair, applied
in order through `add_currency` (metadata `None`, a fixed clock). -/
def applyAdds (ops : List (Int × String)) (s : State) : State :=
  ops.foldl (fun st p => add_currency p.1 p.2 none 0 st) s

/-- The state `register` leaves for a fresh user (src/app.py:383-395):
a currency row `UserCurrency(user_id=user.id, balance=100)` whose earned and
spent totals take the column default 0, a fresh statistics row, and no
transactions or inventory. -/
def registerState : State :=
  { currency := some { balance := 100, total_earned := 0, total_spent := 0 },
    transactions := [],
    stats := some UserStatistic.init,
    inventory := [],
    items := [] }

/-- The empty state: no rows at all for the user.  From here the first
`add_currency` call itself creates the currency row. -/
def initState : State :=
  { currency := none, transactions := [], stats := none, inventory := [],
    items := [] }

/-- The quantity `balance − (total_earned − total_spent)`; `add_currency`
preserves it. -/
def State.diffVal (s : State) : Int :=
  s.balanceVal - (s.earnedVal - s.spentVal)

theorem add_currency_diff (amount : Int) (reason : String)
    (metadata : Option String) (now : Nat) (s : State) :
    (add_currency amount reason metadata now s).diffVal = s.diffVal := by
  unfold add_currency State.diffVal State.balanceVal State.earnedVal
    State.spentVal
  cases hc : s.currency with
  | none =>
      simp only []
      rcases lt_trichotomy amount 0 with h | h | h
      · rw [if_neg (by omega), if_pos h, abs_of_neg h]; ring
      · subst h; norm_num
      · rw [if_pos h, if_neg (by omega)]; ring
  | some c =>
      simp only []
      by_cases h : amount > 0
      · rw [if_pos h]; ring
      · rw [if_neg h, abs_of_nonpos (by omega)]; ring

theorem applyAdds_diff (ops : List (Int × String)) (s : State) :
    (applyAdds ops s).diffVal = s.diffVal := by
  induction ops generalizing s with
  | nil => rfl
  | cons p rest ih =>
      show (applyAdds rest (add_currency p.1 p.2 none 0 s)).diffVal = _
      rw [ih, add_currency_diff]

/-- C1, counterexample: starting from the state `register` creates (balance
100, totals 0) the invariant `balance = total_earned - total_spent` already
fails after a single adjustment (and in fact for the empty sequence too):
after earning 5 the balance is 105 while `total_earned - total_spent` is 5. -/
theorem C1_counterexample :
    ¬ ((applyAdds [(5, "gift")] registerState).balanceVal =
        (applyAdds [(5, "gift")] registerState).earnedVal -
        (applyAdds [(5, "gift")] registerState).spentVal) := by
  decide

/-- C1 (amended): `add_currency` preserves the quantity
`balance − (total_earned − total_spent)`.  Hence for every sequence of
currency adjustments starting from the state in which `add_currency` itself
creates the account record (no prior row), the final balance equals
`total_earned − total_spent`; starting from the registration-created record
(balance 100, totals 0) the final balance equals
`total_earned − total_spent + 100`. -/
theorem C1_balance_invariant (ops : List (Int × String)) :
    ((applyAdds ops initState).balanceVal =
      (applyAdds ops initState).earnedVal - (applyAdds ops initState).spentVal)
    ∧ ((applyAdds ops registerState).balanceVal =
      (applyAdds ops registerState).earnedVal -
        (applyAdds ops registerState).spentVal + 100) := by
  have h1 := applyAdds_diff ops initState
  have h2 := applyAdds_diff ops registerState
  have e1 : initState.diffVal = 0 := by decide
  have e2 : registerState.diffVal = 100 := by decide
  rw [e1] at h1
  rw [e2] at h2
  unfold State.diffVal at h1 h2
  exact ⟨by omega, by omega⟩

/-- C2: the contract of `add_currency` on a successful run: (a) the currency
row exists afterwards, (b) the balance grows by `amount`, (c) a positive
amount is credited to `total_earned` and a non-positive one charges
`|amount|` to `total_spent`, (d) exactly one transaction record with this
amount, reason and metadata is appended, and (e) when the reason is the
daily-reward tag the `daily_rewards_claimed` counter is incremented and
`last_daily_reward` is stamped (other reasons leave the statistics row
alone). -/
theorem C2_add_currency_contract (amount : Int) (reason : String)
    (metadata : Option String) (now : Nat) (s : State) :
    ((add_currency amount reason metadata now s).currency.isSome = true)
    ∧ ((add_currency amount reason metadata now s).balanceVal =
        s.balanceVal + amount)
    ∧ (0 < amount →
        (add_currency amount reason metadata now s).earnedVal =
          s.earnedVal + amount
        ∧ (add_currency amount reason metadata now s).spentVal = s.spentVal)
    ∧ (amount ≤ 0 →
        (add_currency amount reason metadata now s).spentVal =
          s.spentVal + |amount|
        ∧ (add_currency amount reason metadata now s).earnedVal = s.earnedVal)
    ∧ ((add_currency amount reason metadata now s).transactions =
        s.transactions ++
          [{ amount := amount, reason := reason,
             transaction_metadata := metadata, created_at := now }])
    ∧ (reason = "daily_reward" →
        (add_currency amount reason metadata now s).stats =
          some { (s.stats.getD UserStatistic.init) with
            daily_rewards_claimed :=
              (s.stats.getD UserStatistic.init).daily_rewards_claimed + 1,
            last_daily_reward := some now })
    ∧ (reason ≠ "daily_reward" →
        (add_currency amount reason metadata now s).stats = s.stats) := by
  rcases lt_trichotomy amount 0 with h | h | h
  · have h1 : ¬ 0 < amount := by omega
    have h2 : amount ≤ 0 := by omega
    by_cases hr : reason = "daily_reward" <;>
      cases hc : s.currency <;>
        simp [add_currency, State.balanceVal, State.earnedVal, State.spentVal,
          hc, hr, h, h1, h2, abs_of_neg h]
  · subst h
    by_cases hr : reason = "daily_reward" <;>
      cases hc : s.currency <;>
        norm_num [add_currency, State.balanceVal, State.earnedVal,
          State.spentVal, hc, hr]
  · have h1 : ¬ amount < 0 := by omega
    have h2 : ¬ amount ≤ 0 := by omega
    by_cases hr : reason = "daily_reward" <;>
      cases hc : s.currency <;>
        simp [add_currency, State.balanceVal, State.earnedVal, State.spentVal,
          hc, hr, h, h1, h2]

/-- The possible fates of one `add_currency` call (src/utils.py:613-659).
The whole body is one `try` block; the ORM mutations reach the stored state
only at `db.session.commit()`, and after the commit the cache invalidation
`invalidate_cache` still runs inside the same `try`, so an exception raised
there is also answered with `return False`. -/
inductive FailPoint where
  | noFault
  | beforeCommit
  | afterCommit
  deriving Repr, DecidableEq

/-- One run of `add_currency` (src/utils.py:613-659) with its failure point
made explicit: the stored state after the run and the returned boolean.
`noFault` commits and returns `True`; `beforeCommit` is an exception anywhere
before the commit completes (nothing is stored, `False`); `afterCommit` is an
exception in `invalidate_cache` after the commit (the full update is stored,
yet `False` is returned). -/
def add_currencyRun (fp : FailPoint) (amount : Int) (reason : String)
    (metadata : Option String) (now : Nat) (s : State) : State × Bool :=
  match fp with
  | .noFault => (add_currency amount reason metadata now s, true)
  | .beforeCommit => (s, false)
  | .afterCommit => (add_currency amount reason metadata now s, false)

/-- C3, counterexample: a run whose exception comes after the commit (in the
cache invalidation) returns `False` yet leaves the fully updated state
stored, so "returns false → stored state unchanged" fails. -/
theorem C3_counterexample :
    ¬ ((add_currencyRun FailPoint.afterCommit 5 "gift" none 0 initState).2 =
        true
      ∨ (add_currencyRun FailPoint.afterCommit 5 "gift" none 0 initState).1 =
        initState) := by
  decide

/-- C3 (amended): every run of `add_currency` stores either nothing or the
complete update — no partial application of steps (a)-(e) is ever stored —
and a `True` return means the complete update is stored; an exception before
the commit returns `False` with the state unchanged, but an exception after
the commit (in the cache invalidation) also returns `False` although the
complete update is stored, so a `False` return does not guarantee an
unchanged state. -/
theorem C3_all_or_nothing (fp : FailPoint) (amount : Int) (reason : String)
    (metadata : Option String) (now : Nat) (s : State) :
    (((add_currencyRun fp amount reason metadata now s).2 = true) →
        (add_currencyRun fp amount reason metadata now s).1 =
          add_currency amount reason metadata now s)
    ∧ (fp = FailPoint.beforeCommit →
        (add_currencyRun fp amount reason metadata now s).1 = s
        ∧ (add_currencyRun fp amount reason metadata now s).2 = false)
    ∧ (fp = FailPoint.afterCommit →
        (add_currencyRun fp amount reason metadata now s).1 =
          add_currency amount reason metadata now s
        ∧ (add_currencyRun fp amount reason metadata now s).2 = false)
    ∧ ((add_currencyRun fp amount reason metadata now s).1 = s
        ∨ (add_currencyRun fp amount reason metadata now s).1 =
          add_currency amount reason metadata now s) := by
  cases fp <;> simp [add_currencyRun]

/-- `ShopItem.query.get(item_id)`: the catalog row with that primary key
(the first row whose `id` matches). -/
def findItem (items : List ShopItem) (item_id : Nat) : Option ShopItem :=
  items.find? fun it => it.id == item_id

/-- Committing a mutation of one fetched row: the row with the mutated row's
primary key is replaced by the mutated row. -/
def updateItem (items : List ShopItem) (upd : ShopItem) : List ShopItem :=
  items.map fun it => if it.id = upd.id then upd else it

/-- The outcomes of `buy_shop_item` (src/app.py:739-818): the 404 of
`get_or_404`, the four precondition failures in source order, or success. -/
inductive BuyResult where
  | notFound
  | notActive
  | outOfStock
  | insufficientFunds
  | alreadyOwned
  | purchased
  deriving Repr, DecidableEq

/-- `buy_shop_item` (src/app.py:739-818).  Preconditions in source order:
the item is active, its stock is not exactly 0 (−1 means unlimited), the
buyer's balance (0 without a currency row) covers the price, and the buyer
does not already own the item.  On success: the balance is debited and
`total_spent` credited when a currency row exists, the item's sales counter
grows and its stock shrinks when positive, one transaction of `-price` is
appended, one unequipped inventory row is inserted, and `items_purchased` is
bumped when a statistics row exists. -/
def buy_shop_item (item_id : Nat) (now : Nat) (s : State) : State × BuyResult :=
  match findItem s.items item_id with
  | none => (s, BuyResult.notFound)
  | some item =>
    if item.is_active = false then (s, BuyResult.notActive)
    else if item.stock = 0 then (s, BuyResult.outOfStock)
    else if s.balanceVal < item.price then (s, BuyResult.insufficientFunds)
    else if s.inventory.any fun inv => inv.item_id == item_id then
      (s, BuyResult.alreadyOwned)
    else
      let currency := s.currency.map fun c =>
        { c with balance := c.balance - item.price,
                 total_spent := c.total_spent + item.price }
      let upd : ShopItem :=
        { item with
          sales_count := item.sales_count + 1,
          stock := if item.stock > 0 then item.stock - 1 else item.stock }
      let txn : CurrencyTransaction :=
        { amount := -item.price, reason := "purchase_" ++ item.type,
          transaction_metadata := some ("item " ++ toString item.id),
          created_at := now }
      let stats := s.stats.map fun st =>
        { st with items_purchased := st.items_purchased + 1 }
      ({ currency := currency,
         transactions := s.transactions ++ [txn],
         stats := stats,
         inventory := s.inventory ++
           [{ item_id := item_id, equipped := false }],
         items := updateItem s.items upd }, BuyResult.purchased)

/-- C4: a purchase never succeeds with `balance < price` or stock exactly 0;
the preconditions are checked in source order (active, stock, balance,
ownership) and any failure leaves the state unchanged. -/
theorem C4_buy_preconditions (item_id now : Nat) (s : State) :
    ((buy_shop_item item_id now s).2 = BuyResult.purchased →
        ∃ item, findItem s.items item_id = some item
          ∧ item.is_active = true ∧ item.stock ≠ 0
          ∧ item.price ≤ s.balanceVal
          ∧ (s.inventory.any fun inv => inv.item_id == item_id) = false)
    ∧ ((buy_shop_item item_id now s).2 ≠ BuyResult.purchased →
        (buy_shop_item item_id now s).1 = s)
    ∧ (∀ item, findItem s.items item_id = some item →
        (item.is_active = false →
          (buy_shop_item item_id now s).2 = BuyResult.notActive)
        ∧ (item.is_active = true → item.stock = 0 →
          (buy_shop_item item_id now s).2 = BuyResult.outOfStock)
        ∧ (item.is_active = true → item.stock ≠ 0 →
            s.balanceVal < item.price →
          (buy_shop_item item_id now s).2 = BuyResult.insufficientFunds)
        ∧ (item.is_active = true → item.stock ≠ 0 →
            item.price ≤ s.balanceVal →
            (s.inventory.any fun inv => inv.item_id == item_id) = true →
          (buy_shop_item item_id now s).2 = BuyResult.alreadyOwned)) := by
  cases hf : findItem s.items item_id with
  | none => simp [buy_shop_item, hf]
  | some item =>
      by_cases ha : item.is_active = true
      · by_cases hs : item.stock = 0
        · simp [buy_shop_item, hf, ha, hs]
        · by_cases hb : s.balanceVal < item.price
          · simp [buy_shop_item, hf, ha, hs, hb]
          · by_cases ho :
                (s.inventory.any fun inv => inv.item_id == item_id) = true
            · simp [buy_shop_item, hf, ha, hs, hb, ho]
              omega
            · refine ⟨?_, ?_, ?_⟩
              · intro _
                exact ⟨item, rfl, ha, hs, by omega, by simpa using ho⟩
              · intro hcontra
                exact absurd (by simp [buy_shop_item, hf, ha, hs, hb, ho])
                  hcontra
              · rintro item' hf'
                cases hf'
                simp [buy_shop_item, hf, ha, hs, hb, ho]
      · simp only [buy_shop_item, hf]
        rw [if_pos (by simpa using ha)]
        refine ⟨by simp, by simp, ?_⟩
        rintro item' hf'
        cases hf'
        simp [ha]

/-- An unlimited-stock catalog item (stock −1) used as a concrete input. -/
def c5Item : ShopItem :=
  { id := 1, type := "theme", price := 10, stock := -1, sales_count := 0,
    is_active := true }

/-- A buyer with 50 coins, no statistics row, and `c5Item` on sale. -/
def c5State : State :=
  { currency := some { balance := 50, total_earned := 0, total_spent := 0 },
    transactions := [],
    stats := none,
    inventory := [],
    items := [c5Item] }

/-- C5, counterexample: buying the unlimited-stock item (stock −1) succeeds,
yet the stock counter is not decremented (it stays −1 as the unlimited
marker), and no items-purchased counter is bumped because the buyer has no
statistics row (the handler only increments an existing one). -/
theorem C5_counterexample :
    (buy_shop_item 1 0 c5State).2 = BuyResult.purchased
    ∧ ¬ ((findItem (buy_shop_item 1 0 c5State).1.items 1).map ShopItem.stock =
        some (c5Item.stock - 1))
    ∧ (buy_shop_item 1 0 c5State).1.stats = none := by
  decide

/-- C5 (amended): a successful purchase debits the balance by the price and
credits `total_spent` when a currency row exists (leaving none otherwise),
replaces the catalog row by one whose sales counter is incremented and whose
stock is decremented exactly when it was positive (the unlimited marker −1
is kept), appends one transaction of amount `-price`, inserts one unequipped
inventory entry for the item, and bumps `items_purchased` when a statistics
row exists (leaving none otherwise). -/
theorem C5_buy_success_effects (item_id now : Nat) (s : State)
    (item : ShopItem) (hf : findItem s.items item_id = some item)
    (hp : (buy_shop_item item_id now s).2 = BuyResult.purchased) :
    ((buy_shop_item item_id now s).1.items =
        updateItem s.items
          { item with sales_count := item.sales_count + 1,
                      stock := if item.stock > 0 then item.stock - 1
                               else item.stock })
    ∧ (∀ c, s.currency = some c →
        (buy_shop_item item_id now s).1.currency =
          some { c with balance := c.balance - item.price,
                        total_spent := c.total_spent + item.price })
    ∧ (s.currency = none → (buy_shop_item item_id now s).1.currency = none)
    ∧ ((buy_shop_item item_id now s).1.transactions =
        s.transactions ++
          [{ amount := -item.price, reason := "purchase_" ++ item.type,
             transaction_metadata := some ("item " ++ toString item.id),
             created_at := now }])
    ∧ ((buy_shop_item item_id now s).1.inventory =
        s.inventory ++ [{ item_id := item_id, equipped := false }])
    ∧ (∀ st, s.stats = some st →
        (buy_shop_item item_id now s).1.stats =
          some { st with items_purchased := st.items_purchased + 1 })
    ∧ (s.stats = none → (buy_shop_item item_id now s).1.stats = none) := by
  by_cases ha : item.is_active = true
  · by_cases hs : item.stock = 0
    · exact absurd hp (by simp [buy_shop_item, hf, ha, hs])
    · by_cases hb : s.balanceVal < item.price
      · exact absurd hp (by simp [buy_shop_item, hf, ha, hs, hb])
      · by_cases ho :
            (s.inventory.any fun inv => inv.item_id == item_id) = true
        · exact absurd hp (by simp [buy_shop_item, hf, ha, hs, hb, ho])
        · refine ⟨?_, ?_, ?_, ?_, ?_, ?_, ?_⟩
          · simp [buy_shop_item, hf, ha, hs, hb, ho]
          · intro c hc
            simp [buy_shop_item, hf, ha, hs, hb, ho, hc]
          · intro hc
            simp [buy_shop_item, hf, ha, hs, hb, ho, hc]
          · simp [buy_shop_item, hf, ha, hs, hb, ho]
          · simp [buy_shop_item, hf, ha, hs, hb, ho]
          · intro st hst
            simp [buy_shop_item, hf, ha, hs, hb, ho, hst]
          · intro hst
            simp [buy_shop_item, hf, ha, hs, hb, ho, hst]
  · exact absurd hp (by simp [buy_shop_item, hf, ha])

/-- C5, witness: the amended theorem applied to the concrete buyer and item
above: the purchase succeeds and inserts exactly one unequipped inventory
entry for item 1. -/
theorem C5_buy_success_effects_witness :
    (buy_shop_item 1 0 c5State).1.inventory =
      [{ item_id := 1, equipped := false }] := by
  have h := C5_buy_success_effects 1 0 c5State c5Item (by decide) (by decide)
  simpa [c5State] using h.2.2.2.2.1

/-- Seconds in one day: `datetime.date()` of a timestamp is its day number. -/
def secondsPerDay : Nat := 86400

/-- The UTC calendar date (day number) of a timestamp. -/
def dateOf (t : Nat) : Nat := t / secondsPerDay

/-- A transaction with maximal `created_at`, as
`order_by(CurrencyTransaction.created_at.desc()).first()` returns. -/
def maxByCreated : List CurrencyTransaction → Option CurrencyTransaction
  | [] => none
  | t :: ts =>
      match maxByCreated ts with
      | none => some t
      | some m => if t.created_at ≤ m.created_at then some m else some t

/-- The query of src/app.py:1141-1145: the user's most recent transaction
with reason `daily_reward`. -/
def last_reward (txns : List CurrencyTransaction) : Option CurrencyTransaction :=
  maxByCreated (txns.filter fun t => t.reason == "daily_reward")

theorem maxByCreated_mem (l : List CurrencyTransaction)
    (m : CurrencyTransaction) (h : maxByCreated l = some m) : m ∈ l := by
  induction l generalizing m with
  | nil => simp [maxByCreated] at h
  | cons t ts ih =>
      rw [maxByCreated] at h
      cases hm : maxByCreated ts with
      | none =>
          rw [hm] at h
          dsimp only at h
          cases h
          exact List.mem_cons_self _ _
      | some m' =>
          rw [hm] at h
          dsimp only at h
          by_cases hle : t.created_at ≤ m'.created_at
          · rw [if_pos hle] at h
            cases h
            exact List.mem_cons_of_mem _ (ih _ hm)
          · rw [if_neg hle] at h
            cases h
            exact List.mem_cons_self _ _

theorem maxByCreated_isMax (l : List CurrencyTransaction)
    (t : CurrencyTransaction) (ht : t ∈ l) :
    ∃ m, maxByCreated l = some m ∧ t.created_at ≤ m.created_at := by
  induction l with
  | nil => cases ht
  | cons a ts ih =>
      cases hm : maxByCreated ts with
      | none =>
          have hts : ∀ x ∈ ts, False := by
            intro x hx
            rcases ih' : maxByCreated ts with _ | m0
            · clear ih
              induction ts with
              | nil => cases hx
              | cons b bs ihb =>
                  rw [maxByCreated] at ih'
                  cases hb : maxByCreated bs <;> rw [hb] at ih' <;>
                    dsimp only at ih'
                  · cases ih'
                  · split at ih' <;> cases ih'
            · rw [hm] at ih'; cases ih'
          rcases List.mem_cons.mp ht with rfl | hx
          · refine ⟨t, ?_, le_refl _⟩
            rw [maxByCreated, hm]
          · exact absurd hx (fun hx => hts _ hx)
      | some m' =>
          rcases List.mem_cons.mp ht with rfl | hts
          · by_cases hle : t.created_at ≤ m'.created_at
            · refine ⟨m', ?_, hle⟩
              rw [maxByCreated, hm]
              dsimp only
              rw [if_pos hle]
            · refine ⟨t, ?_, le_refl _⟩
              rw [maxByCreated, hm]
              dsimp only
              rw [if_neg hle]
          · rcases ih hts with ⟨m2, hm2, hle2⟩
            rw [hm] at hm2
            cases hm2
            by_cases hle : a.created_at ≤ m'.created_at
            · refine ⟨m', ?_, hle2⟩
              rw [maxByCreated, hm]
              dsimp only
              rw [if_pos hle]
            · refine ⟨a, ?_, le_trans hle2 (by omega)⟩
              rw [maxByCreated, hm]
              dsimp only
              rw [if_neg hle]

/-- The streak computation of src/app.py:1156-1162: 1 when there is no
recorded `last_daily_reward` or the previous claim was not exactly one
calendar day earlier; otherwise `min(daily_rewards_claimed % 7 + 1, 7)`.
The date difference is the signed difference of day numbers, as Python's
`(date1 - date2).days`. -/
def consecutive_days (now : Nat) (stats : UserStatistic) : Nat :=
  match stats.last_daily_reward with
  | none => 1
  | some last =>
      if (dateOf now : Int) - (dateOf last : Int) = 1 then
        min (stats.daily_rewards_claimed % 7 + 1) 7
      else 1

/-- The grant half of `daily_reward` (src/app.py:1150-1179) once the
already-claimed-today guard has passed, on the success path of the inner
`add_currency` call: the statistics row is created if absent, the streak and
reward are computed from the pre-claim statistics, `add_currency` credits
`base_reward + streak * 5` with reason `daily_reward` (incrementing
`daily_rewards_claimed` and stamping `last_daily_reward`), and the handler
stamps `last_daily_reward` once more before its own commit.  Returns the
granted total and the streak. -/
def dailyRewardGrant (now : Nat) (base_reward : Int) (s : State) :
    State × Option (Int × Nat) :=
  let stats := s.stats.getD UserStatistic.init
  let consecutive := consecutive_days now stats
  let total_reward : Int := base_reward + (consecutive : Int) * 5
  let s2 := add_currency total_reward "daily_reward"
    (some "consecutive_days") now { s with stats := some stats }
  ({ s2 with stats := s2.stats.map fun st =>
      { st with last_daily_reward := some now } },
   some (total_reward, consecutive))

/-- `daily_reward` (src/app.py:1133-1181): the guard looks up the most recent
transaction with reason `daily_reward`; when its UTC date is today's the
claim fails with no state change (`none`); otherwise the reward is granted.
`base_reward` stands for the draw `random.randint(10, 25)`. -/
def daily_reward (now : Nat) (base_reward : Int) (s : State) :
    State × Option (Int × Nat) :=
  match last_reward s.transactions with
  | some lr =>
      if dateOf lr.created_at = dateOf now then (s, none)
      else dailyRewardGrant now base_reward s
  | none => dailyRewardGrant now base_reward s

/-- C6: a user cannot claim two daily rewards on one UTC calendar day.  If
some transaction with reason `daily_reward` is already recorded with today's
date — and no transaction is stamped in the future — the claim fails and the
state is unchanged. -/
theorem C6_daily_reward_once_per_day (now : Nat) (base : Int) (s : State)
    (hclock : ∀ t ∈ s.transactions, t.created_at ≤ now)
    (hclaimed : ∃ t ∈ s.transactions, t.reason = "daily_reward" ∧
      dateOf t.created_at = dateOf now) :
    daily_reward now base s = (s, none) := by
  rcases hclaimed with ⟨t, ht, hr, hd⟩
  have htf : t ∈ s.transactions.filter fun t => t.reason == "daily_reward" := by
    rw [List.mem_filter]
    exact ⟨ht, by simp [hr]⟩
  rcases maxByCreated_isMax _ t htf with ⟨m, hm, hle⟩
  have hmf : m ∈ s.transactions.filter fun t => t.reason == "daily_reward" :=
    maxByCreated_mem _ _ hm
  have hmem : m ∈ s.transactions := (List.mem_filter.mp hmf).1
  have hmle : m.created_at ≤ now := hclock m hmem
  have hdm : dateOf m.created_at = dateOf now := by
    have h1 : dateOf t.created_at ≤ dateOf m.created_at :=
      Nat.div_le_div_right hle
    have h2 : dateOf m.created_at ≤ dateOf now :=
      Nat.div_le_div_right hmle
    omega
  have hlr : last_reward s.transactions = some m := hm
  rw [daily_reward, hlr]
  dsimp only
  rw [if_pos hdm]

/-- The single-user state used as a concrete input for the daily-reward
claims: 100 coins, one daily reward of 20 already claimed at timestamp 5
(day 0), and a statistics row recording 3 claims, the last at timestamp 5. -/
def c6State : State :=
  { currency := some { balance := 100, total_earned := 20, total_spent := 0 },
    transactions := [{ amount := 20, reason := "daily_reward",
                       transaction_metadata := none, created_at := 5 }],
    stats := some { items_purchased := 0, daily_rewards_claimed := 3,
                    last_daily_reward := some 5 },
    inventory := [],
    items := [] }

/-- C6, witness: a second claim at timestamp 200 of the same day 0 fails and
changes nothing. -/
theorem C6_daily_reward_once_per_day_witness :
    daily_reward 200 15 c6State = (c6State, none) :=
  C6_daily_reward_once_per_day 200 15 c6State (by decide) (by decide)

theorem daily_reward_snd_eq (now : Nat) (base : Int) (s : State) (t : Int)
    (c : Nat) (h : (daily_reward now base s).2 = some (t, c)) :
    c = consecutive_days now (s.stats.getD UserStatistic.init)
    ∧ t = base + (c : Int) * 5 := by
  rw [daily_reward] at h
  cases hlr : last_reward s.transactions with
  | none =>
      rw [hlr] at h
      dsimp only at h
      simp only [dailyRewardGrant, Option.some.injEq, Prod.mk.injEq] at h
      exact ⟨h.2.symm, by rw [← h.1, ← h.2]⟩
  | some lr =>
      rw [hlr] at h
      dsimp only at h
      by_cases hd : dateOf lr.created_at = dateOf now
      · rw [if_pos hd] at h
        simp at h
      · rw [if_neg hd] at h
        simp only [dailyRewardGrant, Option.some.injEq, Prod.mk.injEq] at h
        exact ⟨h.2.symm, by rw [← h.1, ← h.2]⟩

theorem consecutive_days_le_seven (now : Nat) (st : UserStatistic) :
    consecutive_days now st ≤ 7 := by
  rw [consecutive_days]
  cases st.last_daily_reward with
  | none =>
      dsimp only
      omega
  | some last =>
      dsimp only
      split
      · exact min_le_right _ _
      · omega

/-- C7: every successful daily-reward claim grants
`base + streak * 5` coins, where the streak is 1 when no previous claim is
recorded or when the previous claim was not exactly one calendar day prior
(in particular for any gap of more than one day), and
`min(daily_rewards_claimed % 7 + 1, 7)` when it was exactly one day prior. -/
theorem C7_reward_magnitude (now : Nat) (base : Int) (s : State) (t : Int)
    (c : Nat) (h : (daily_reward now base s).2 = some (t, c)) :
    t = base + (c : Int) * 5
    ∧ ((s.stats.getD UserStatistic.init).last_daily_reward = none → c = 1)
    ∧ (∀ l, (s.stats.getD UserStatistic.init).last_daily_reward = some l →
        (dateOf now : Int) - (dateOf l : Int) ≠ 1 → c = 1)
    ∧ (∀ l, (s.stats.getD UserStatistic.init).last_daily_reward = some l →
        (dateOf now : Int) - (dateOf l : Int) = 1 →
        c = min ((s.stats.getD UserStatistic.init).daily_rewards_claimed % 7
          + 1) 7) := by
  rcases daily_reward_snd_eq now base s t c h with ⟨hc, ht⟩
  refine ⟨ht, ?_, ?_, ?_⟩
  · intro hnone
    rw [hc, consecutive_days, hnone]
  · intro l hsome hne
    rw [hc, consecutive_days, hsome]
    dsimp only
    rw [if_neg hne]
  · intro l hsome heq
    rw [hc, consecutive_days, hsome]
    dsimp only
    rw [if_pos heq]

/-- C7, witness: with 3 recorded claims, the last one exactly one day
earlier, the granted total 35 equals the base 15 plus streak 4 times 5. -/
theorem C7_reward_magnitude_witness :
    (35 : Int) = 15 + ((4 : Nat) : Int) * 5 :=
  (C7_reward_magnitude 86405 15 c6State 35 4 (by decide)).1

/-- C10: the streak a successful daily-reward claim uses never exceeds 7
(it is 1, or `min(daily_rewards_claimed % 7 + 1, 7)`), so the streak bonus
is at most 35 coins and the total grant is at most the base plus 35. -/
theorem C10_streak_capped (now : Nat) (base : Int) (s : State) (t : Int)
    (c : Nat) (h : (daily_reward now base s).2 = some (t, c)) :
    c ≤ 7 ∧ (c : Int) * 5 ≤ 35 ∧ t ≤ base + 35 := by
  rcases daily_reward_snd_eq now base s t c h with ⟨hc, ht⟩
  have h7 : c ≤ 7 := by rw [hc]; exact consecutive_days_le_seven _ _
  refine ⟨h7, ?_, ?_⟩
  · have : (c : Int) ≤ 7 := by exact_mod_cast h7
    omega
  · have : (c : Int) ≤ 7 := by exact_mod_cast h7
    omega

/-- C10, witness: the concrete claim of the C7 witness has streak 4 ≤ 7. -/
theorem C10_streak_capped_witness : (4 : Nat) ≤ 7 :=
  (C10_streak_capped 86405 15 c6State 35 4 (by decide)).1

/-- The catalog type of an inventory entry: the `type` of the `ShopItem` the
entry's foreign key references (none when the catalog row is missing).  The
equip flow reads it through the `inventory_item.item` relationship and the
join on `ShopItem`. -/
def typeOfInv (items : List ShopItem) (inv : UserInventory) : Option String :=
  (findItem items inv.item_id).map ShopItem.type

/-- The unequip pass of `equip_item` (src/app.py:859-861): every inventory
entry whose referenced item has the given type — the join only yields entries
whose catalog row exists — gets `equipped = False`. -/
def unequipType (items : List ShopItem) (t : String)
    (l : List UserInventory) : List UserInventory :=
  l.map fun inv =>
    if typeOfInv items inv = some t then { inv with equipped := false }
    else inv

/-- Setting `equipped = True` on the row `query.filter_by(...).first()`
returned: the first entry with the given item id. -/
def equipFirst : List UserInventory → Nat → List UserInventory
  | [], _ => []
  | inv :: rest, iid =>
      if inv.item_id = iid then { inv with equipped := true } :: rest
      else inv :: equipFirst rest iid

/-- `equip_item` (src/app.py:845-868).  Fails (404, no state change) when the
user has no inventory entry for the item; fails with no commit when the
entry's catalog row is missing (`inventory_item.item` is `None` and reading
`.type` raises before any write).  Otherwise every entry of the same item
type is unequipped and the chosen entry equipped, in that order. -/
def equip_item (item_id : Nat) (s : State) : State × Bool :=
  match s.inventory.find? fun inv => inv.item_id == item_id with
  | none => (s, false)
  | some _ =>
      match findItem s.items item_id with
      | none => (s, false)
      | some item =>
          ({ s with inventory :=
              equipFirst (unequipType s.items item.type s.inventory) item_id },
           true)

/-- Uniqueness of inventory rows per item, the
`UniqueConstraint('user_id', 'item_id')` of src/models.py:323 for one user. -/
def invUnique (s : State) : Prop :=
  (s.inventory.map UserInventory.item_id).Nodup

theorem unequipType_map_id (items : List ShopItem) (t : String)
    (l : List UserInventory) :
    (unequipType items t l).map UserInventory.item_id =
      l.map UserInventory.item_id := by
  induction l with
  | nil => rfl
  | cons a l ih =>
      simp only [unequipType, List.map_cons] at ih ⊢
      rw [ih]
      by_cases h : typeOfInv items a = some t
      · rw [if_pos h]
      · rw [if_neg h]

theorem equipFirst_map_id (l : List UserInventory) (iid : Nat) :
    (equipFirst l iid).map UserInventory.item_id =
      l.map UserInventory.item_id := by
  induction l with
  | nil => rfl
  | cons a l ih =>
      rw [equipFirst]
      by_cases h : a.item_id = iid
      · rw [if_pos h]
        simp [List.map_cons]
      · rw [if_neg h]
        simp only [List.map_cons, ih]

theorem buy_not_owned_of_purchased (item_id now : Nat) (s : State)
    (ho : (s.inventory.any fun inv => inv.item_id == item_id) = true) :
    (buy_shop_item item_id now s).2 ≠ BuyResult.purchased
    ∧ (buy_shop_item item_id now s).1 = s := by
  cases hf : findItem s.items item_id with
  | none => simp [buy_shop_item, hf]
  | some item =>
      by_cases ha : item.is_active = true
      · by_cases hs : item.stock = 0
        · simp [buy_shop_item, hf, ha, hs]
        · by_cases hb : s.balanceVal < item.price
          · simp [buy_shop_item, hf, ha, hs, hb]
          · simp [buy_shop_item, hf, ha, hs, hb, ho]
      · simp only [buy_shop_item, hf]
        rw [if_pos (by simpa using ha)]
        simp

/-- C8: a user never holds two inventory entries for the same item.  A
purchase by an owner of the item fails with no state change, and both the
purchase and the equip operation preserve uniqueness of the inventory's
item ids. -/
theorem C8_inventory_unique (item_id now : Nat) (s : State) :
    ((s.inventory.any fun inv => inv.item_id == item_id) = true →
        (buy_shop_item item_id now s).2 ≠ BuyResult.purchased
        ∧ (buy_shop_item item_id now s).1 = s)
    ∧ (invUnique s → invUnique (buy_shop_item item_id now s).1)
    ∧ (invUnique s → invUnique (equip_item item_id s).1) := by
  refine ⟨buy_not_owned_of_purchased item_id now s, ?_, ?_⟩
  · intro hu
    cases hf : findItem s.items item_id with
    | none => simpa [buy_shop_item, hf] using hu
    | some item =>
        by_cases ha : item.is_active = true
        · by_cases hs : item.stock = 0
          · simpa [buy_shop_item, hf, ha, hs] using hu
          · by_cases hb : s.balanceVal < item.price
            · simpa [buy_shop_item, hf, ha, hs, hb] using hu
            · by_cases ho :
                  (s.inventory.any fun inv => inv.item_id == item_id) = true
              · simpa [buy_shop_item, hf, ha, hs, hb, ho] using hu
              · have hnot : item_id ∉ s.inventory.map UserInventory.item_id := by
                  intro hmem
                  rcases List.mem_map.mp hmem with ⟨inv, hinv, hid⟩
                  exact ho (List.any_eq_true.mpr ⟨inv, hinv, by simp [hid]⟩)
                have hinv : (buy_shop_item item_id now s).1.inventory =
                    s.inventory ++ [{ item_id := item_id, equipped := false }] := by
                  simp [buy_shop_item, hf, ha, hs, hb, ho]
                unfold invUnique
                rw [hinv, List.map_append, List.nodup_append]
                refine ⟨hu, by simp, ?_⟩
                intro x hx hx1
                simp only [List.map_cons, List.map_nil,
                  List.mem_singleton] at hx1
                subst hx1
                exact hnot hx
        · have : (buy_shop_item item_id now s).1 = s := by
            simp only [buy_shop_item, hf]
            rw [if_pos (by simpa using ha)]
          rw [this]
          exact hu
  · intro hu
    rw [equip_item]
    cases hfind : s.inventory.find? fun inv => inv.item_id == item_id with
    | none => exact hu
    | some entry =>
        dsimp only
        cases hf : findItem s.items item_id with
        | none => exact hu
        | some item =>
            dsimp only
            unfold invUnique
            simp only [equipFirst_map_id, unequipType_map_id]
            exact hu

theorem findItem_id (items : List ShopItem) (i : Nat) (it : ShopItem)
    (h : findItem items i = some it) : it.id = i := by
  unfold findItem at h
  have := List.find?_some h
  simpa using this

theorem findItem_updateItem_ne (items : List ShopItem) (upd : ShopItem)
    (x : Nat) (hx : x ≠ upd.id) :
    findItem (updateItem items upd) x = findItem items x := by
  induction items with
  | nil => rfl
  | cons a rest ih =>
      unfold updateItem at ih ⊢
      rw [List.map_cons]
      unfold findItem at ih ⊢
      by_cases ha : a.id = upd.id
      · rw [if_pos ha]
        rw [List.find?_cons, List.find?_cons]
        have h1 : (upd.id == x) = false := by
          simp only [beq_eq_false_iff_ne, ne_eq]
          omega
        have h2 : (a.id == x) = false := by
          simp only [beq_eq_false_iff_ne, ne_eq]
          omega
        rw [h1, h2]
        dsimp only
        exact ih
      · rw [if_neg ha]
        rw [List.find?_cons, List.find?_cons]
        cases hax : (a.id == x)
        · dsimp only
          exact ih
        · dsimp only

theorem findItem_updateItem_self (items : List ShopItem) (upd : ShopItem) :
    findItem (updateItem items upd) upd.id =
      (findItem items upd.id).map fun _ => upd := by
  induction items with
  | nil => rfl
  | cons a rest ih =>
      unfold updateItem at ih ⊢
      rw [List.map_cons]
      unfold findItem at ih ⊢
      by_cases ha : a.id = upd.id
      · rw [if_pos ha]
        rw [List.find?_cons, List.find?_cons]
        have h1 : (upd.id == upd.id) = true := by simp
        have h2 : (a.id == upd.id) = true := by simp [ha]
        rw [h1, h2]
        dsimp only
        simp only [Option.map]
      · rw [if_neg ha]
        rw [List.find?_cons, List.find?_cons]
        have h2 : (a.id == upd.id) = false := by
          simp only [beq_eq_false_iff_ne, ne_eq]
          omega
        rw [h2]
        dsimp only
        exact ih

theorem typeOfInv_set_equipped (items : List ShopItem) (inv : UserInventory)
    (b : Bool) :
    typeOfInv items { inv with equipped := b } = typeOfInv items inv := rfl

theorem typeOfInv_updateItem (items : List ShopItem) (upd : ShopItem)
    (hty : ∀ it, findItem items upd.id = some it → it.type = upd.type)
    (inv : UserInventory) :
    typeOfInv (updateItem items upd) inv = typeOfInv items inv := by
  by_cases hx : inv.item_id = upd.id
  · unfold typeOfInv
    rw [hx, findItem_updateItem_self]
    cases hfi : findItem items upd.id with
    | none => rfl
    | some it => simp [hty it hfi]
  · unfold typeOfInv
    rw [findItem_updateItem_ne items upd inv.item_id hx]

theorem countP_equipFirst_le (p : UserInventory → Bool)
    (l : List UserInventory) (iid : Nat) :
    (equipFirst l iid).countP p ≤ l.countP p + 1 := by
  induction l with
  | nil => simp [equipFirst]
  | cons a l ih =>
      rw [equipFirst]
      by_cases h : a.item_id = iid
      · rw [if_pos h]
        rw [List.countP_cons, List.countP_cons]
        have := List.countP_le_length (l := l) (p := p)
        split <;> split <;> omega
      · rw [if_neg h]
        rw [List.countP_cons, List.countP_cons]
        split <;> omega

theorem countP_equipFirst_eq (p : UserInventory → Bool)
    (l : List UserInventory) (iid : Nat)
    (h : ∀ e ∈ l, e.item_id = iid → p { e with equipped := true } = p e) :
    (equipFirst l iid).countP p = l.countP p := by
  induction l with
  | nil => rfl
  | cons a l ih =>
      rw [equipFirst]
      by_cases ha : a.item_id = iid
      · rw [if_pos ha]
        rw [List.countP_cons, List.countP_cons,
          h a (List.mem_cons_self a l) ha]
      · rw [if_neg ha]
        rw [List.countP_cons, List.countP_cons,
          ih fun e he hiid => h e (List.mem_cons_of_mem _ he) hiid]

theorem countP_unequipType_self (items : List ShopItem) (t : String)
    (l : List UserInventory) :
    (unequipType items t l).countP
      (fun inv => inv.equipped && decide (typeOfInv items inv = some t)) =
      0 := by
  rw [List.countP_eq_zero]
  intro a ha
  rcases List.mem_map.mp ha with ⟨inv, hinv, rfl⟩
  by_cases hty : typeOfInv items inv = some t
  · simp [hty]
  · simp [hty]

theorem countP_unequipType_le (items : List ShopItem) (t0 t : String)
    (l : List UserInventory) :
    (unequipType items t0 l).countP
      (fun inv => inv.equipped && decide (typeOfInv items inv = some t)) ≤
    l.countP
      (fun inv => inv.equipped && decide (typeOfInv items inv = some t)) := by
  rw [unequipType, List.countP_map]
  apply List.countP_mono_left
  intro inv hinv hp
  by_cases hty : typeOfInv items inv = some t0
  · simp [Function.comp, hty] at hp
  · simpa [Function.comp, hty] using hp

/-- How many of the user's inventory entries are equipped and reference a
catalog item of the given type. -/
def equippedCount (s : State) (t : String) : Nat :=
  s.inventory.countP fun inv =>
    inv.equipped && decide (typeOfInv s.items inv = some t)

/-- The equip invariant: at most one inventory entry is equipped per item
type. -/
def equipInvariant (s : State) : Prop :=
  ∀ t, equippedCount s t ≤ 1

/-- C9: both the purchase (which inserts entries unequipped) and the equip
operation (which first unequips every entry of the chosen item's type)
preserve the invariant that at most one inventory entry is equipped per
(user, item-type). -/
theorem C9_equipped_at_most_one (item_id now : Nat) (s : State)
    (h : equipInvariant s) :
    equipInvariant (buy_shop_item item_id now s).1
    ∧ equipInvariant (equip_item item_id s).1 := by
  constructor
  · cases hf : findItem s.items item_id with
    | none =>
        have hst : (buy_shop_item item_id now s).1 = s := by
          simp [buy_shop_item, hf]
        rw [hst]
        exact h
    | some item =>
        by_cases ha : item.is_active = true
        · by_cases hs : item.stock = 0
          · have hst : (buy_shop_item item_id now s).1 = s := by
              simp [buy_shop_item, hf, ha, hs]
            rw [hst]
            exact h
          · by_cases hb : s.balanceVal < item.price
            · have hst : (buy_shop_item item_id now s).1 = s := by
                simp [buy_shop_item, hf, ha, hs, hb]
              rw [hst]
              exact h
            · by_cases ho :
                  (s.inventory.any fun inv => inv.item_id == item_id) = true
              · have hst : (buy_shop_item item_id now s).1 = s := by
                  simp [buy_shop_item, hf, ha, hs, hb, ho]
                rw [hst]
                exact h
              · intro t
                have hid : item.id = item_id :=
                  findItem_id s.items item_id item hf
                have hty : ∀ it,
                    findItem s.items item.id = some it → it.type = item.type := by
                  intro it hit
                  rw [hid, hf] at hit
                  cases hit
                  rfl
                have him : (buy_shop_item item_id now s).1.items =
                    updateItem s.items
                      { item with
                        sales_count := item.sales_count + 1,
                        stock := if item.stock > 0 then item.stock - 1
                                 else item.stock } := by
                  simp [buy_shop_item, hf, ha, hs, hb, ho]
                have hinv : (buy_shop_item item_id now s).1.inventory =
                    s.inventory ++
                      [{ item_id := item_id, equipped := false }] := by
                  simp [buy_shop_item, hf, ha, hs, hb, ho]
                show equippedCount (buy_shop_item item_id now s).1 t ≤ 1
                unfold equippedCount
                rw [him, hinv, List.countP_append]
                have hfun :
                    (fun inv => inv.equipped && decide
                      (typeOfInv (updateItem s.items
                        { item with
                          sales_count := item.sales_count + 1,
                          stock := if item.stock > 0 then item.stock - 1
                                   else item.stock }) inv = some t))
                    = fun inv => inv.equipped && decide
                        (typeOfInv s.items inv = some t) := by
                  funext inv
                  rw [typeOfInv_updateItem s.items
                    { item with
                      sales_count := item.sales_count + 1,
                      stock := if item.stock > 0 then item.stock - 1
                               else item.stock }
                    hty inv]
                rw [hfun]
                have h0 : List.countP
                    (fun inv => inv.equipped && decide
                      (typeOfInv s.items inv = some t))
                    [{ item_id := item_id, equipped := false }] = 0 := by
                  simp [List.countP_cons]
                rw [h0]
                have ht := h t
                unfold equippedCount at ht
                omega
        · have hst : (buy_shop_item item_id now s).1 = s := by
            simp only [buy_shop_item, hf]
            rw [if_pos (by simpa using ha)]
          rw [hst]
          exact h
  · cases hfind : s.inventory.find? fun inv => inv.item_id == item_id with
    | none =>
        have hst : (equip_item item_id s).1 = s := by
          simp [equip_item, hfind]
        rw [hst]
        exact h
    | some entry =>
        cases hfi : findItem s.items item_id with
        | none =>
            have hst : (equip_item item_id s).1 = s := by
              simp [equip_item, hfind, hfi]
            rw [hst]
            exact h
        | some item =>
            have hst : (equip_item item_id s).1 =
                { s with
                  inventory :=
                    equipFirst (unequipType s.items item.type s.inventory)
                      item_id } := by
              simp [equip_item, hfind, hfi]
            intro t
            show equippedCount (equip_item item_id s).1 t ≤ 1
            unfold equippedCount
            rw [hst]
            dsimp only
            by_cases hts : t = item.type
            · subst hts
              have h1 := countP_equipFirst_le
                (fun inv => inv.equipped && decide
                  (typeOfInv s.items inv = some item.type))
                (unequipType s.items item.type s.inventory) item_id
              have h2 := countP_unequipType_self s.items item.type s.inventory
              omega
            · have h1 : (equipFirst (unequipType s.items item.type s.inventory)
                  item_id).countP
                    (fun inv => inv.equipped && decide
                      (typeOfInv s.items inv = some t)) =
                  (unequipType s.items item.type s.inventory).countP
                    (fun inv => inv.equipped && decide
                      (typeOfInv s.items inv = some t)) := by
                apply countP_equipFirst_eq
                intro e he hiid
                have htyE : typeOfInv s.items e = some item.type := by
                  unfold typeOfInv
                  rw [hiid, hfi]
                  rfl
                rw [typeOfInv_set_equipped]
                have hne : ¬ (typeOfInv s.items e = some t) := by
                  rw [htyE]
                  intro hcontra
                  apply hts
                  exact (Option.some.inj hcontra).symm
                simp [hne]
              have h2 := countP_unequipType_le s.items item.type t s.inventory
              have ht := h t
              unfold equippedCount at ht
              omega

/-- A user owning one equipped badge of item 1, with item 1 in the catalog. -/
def c9State : State :=
  { currency := some { balance := 50, total_earned := 0, total_spent := 0 },
    transactions := [],
    stats := none,
    inventory := [{ item_id := 1, equipped := true }],
    items := [{ id := 1, type := "badge", price := 10, stock := 3,
                sales_count := 0, is_active := true }] }

/-- C9, witness: re-equipping item 1 in the concrete state keeps the equip
invariant. -/
theorem C9_equipped_at_most_one_witness :
    equipInvariant (equip_item 1 c9State).1 :=
  (C9_equipped_at_most_one 1 0 c9State (by
    intro t
    unfold equippedCount c9State
    rcases ht : decide
        (typeOfInv c9State.items { item_id := 1, equipped := true } = some t)
      with _ | _ <;> simp [List.countP_cons, c9State] at ht ⊢ <;> simp [ht])).2
